import Mathlib

/-!
Verification of the Orbital State & Collision-Risk Engine of the
space-debris-monitor repository.

The Python sources are shallowly embedded:
* strings are `List Char` (Python `str`),
* floats are `ℚ` wherever the source performs plain arithmetic, and `ℝ`
  where the mathematical content of a claim (exp-based probability) lives,
* calls into the C math library (`math.cos`, `math.sin`, `math.sqrt`,
  composed with `math.radians`) are abstracted as a parameter record
  `MathPrims`, exactly as the SGP4 propagator (an external vetted library
  per the spec) is abstracted as a sampling function,
* Python exceptions (IndexError from list indexing, the crash paths of the
  parsers) are made explicit with `Except` / `Option`.
-/

deriving instance DecidableEq for Except

/-! ## String model: Python `str` as `List Char` -/

/-- Python whitespace class used by `str.strip` and the regex `\s`
(ASCII part: space, tab, newline, carriage return, vertical tab, form feed). -/
def isPyWS (c : Char) : Bool :=
  c = ' ' || c = '\t' || c = '\n' || c = '\r' || c = Char.ofNat 11 || c = Char.ofNat 12

/-- Python `str.strip()` on the ASCII whitespace class. -/
def trimL (l : List Char) : List Char :=
  ((l.dropWhile isPyWS).reverse.dropWhile isPyWS).reverse

/-- `startsW p s` models Python `s.startswith(p)`. -/
def startsW : List Char → List Char → Bool
  | [], _ => true
  | _ :: _, [] => false
  | p :: ps, c :: cs => p = c && startsW ps cs

/-- Python `str.splitlines()` restricted to the line terminators that occur in
TLE text (`\n` and `\r`; a `\r\n` pair yields one extra empty piece, which the
caller's blank-line filter removes, so the model agrees with CPython on every
input the parser sees). -/
def splitLines : List Char → List (List Char)
  | [] => [[]]
  | c :: rest =>
    if c = '\n' ∨ c = '\r' then [] :: splitLines rest
    else
      match splitLines rest with
      | h :: t => (c :: h) :: t
      | [] => [[c]]

/-! ## TLE store (`server/tle_store.py`) -/

/-- `TLERecord` dataclass of `tle_store.py`. -/
structure TLERecord where
  name : List Char
  line1 : List Char
  line2 : List Char
  norad_id : Nat
deriving DecidableEq, Repr

/-- The store's `_by_id` dict: insertion-ordered association list. -/
abbrev Dict := List (Nat × TLERecord)

/-- Python `d[k] = v` on an insertion-ordered dict: overwrite in place,
else append. -/
def dictInsert (d : Dict) (k : Nat) (v : TLERecord) : Dict :=
  match d with
  | [] => [(k, v)]
  | (k0, v0) :: t =>
    if k0 = k then (k, v) :: t else (k0, v0) :: dictInsert t k v

/-- Python `d.get(k)`. -/
def dictGet (d : Dict) (k : Nat) : Option TLERecord :=
  match d with
  | [] => none
  | (k0, v0) :: t => if k0 = k then some v0 else dictGet t k

/-- Digit run to integer, as Python `int` on the captured group. -/
def digitsToNat (ds : List Char) : Nat :=
  ds.foldl (fun n c => n * 10 + (c.toNat - 48)) 0

/-- `TLEStore._extract_norad`: `re.match(r"1\s+(\d+)", line1)` then `int` of
the group — a literal `'1'`, at least one whitespace, then a maximal non-empty
digit run; anchored at the start of the line. -/
def extractNorad (line1 : List Char) : Option Nat :=
  match line1 with
  | '1' :: rest =>
    if (rest.takeWhile isPyWS) = [] then none
    else
      let ds := (rest.dropWhile isPyWS).takeWhile Char.isDigit
      if ds = [] then none else some (digitsToNat ds)
  | _ => none

/-- `"1 "`, the expected start of TLE line 1. -/
def oneSp : List Char := ['1', ' ']

/-- `"2 "`, the expected start of TLE line 2. -/
def twoSp : List Char := ['2', ' ']

/-- Placeholder name substituted when the name line is missing. -/
def unknownName : List Char := ['U', 'N', 'K', 'N', 'O', 'W', 'N']

/-- Failure modes of the parse loop: an out-of-bounds list access (Python
`IndexError`), or fuel exhaustion (proved unreachable below). -/
inductive PErr where
  | indexOut
  | fuelOut
deriving DecidableEq, Repr

/-- The `while i + 2 < len(lines)` loop of `TLEStore.load_from_text`.
`fuel` bounds the iteration count (the loop variable `i` strictly increases,
so `lines.length + 1` fuel always suffices; see the totality theorem).
List indexing is modelled by `List.get?`, with `.error .indexOut` standing
for a Python `IndexError`. -/
def parseLoop (lines : List (List Char)) : Nat → Nat → Dict → Nat →
    Except PErr (Dict × Nat)
  | 0, _, _, _ => .error .fuelOut
  | fuel + 1, i, store, count =>
    if i + 2 < lines.length then
      match lines.get? i, lines.get? (i + 1), lines.get? (i + 2) with
      | some nm, some la, some lb =>
        if startsW oneSp la && startsW twoSp lb then
          -- well-formed 3-line block: name, line1, line2; i += 3
          match extractNorad la with
          | some nid =>
            parseLoop lines fuel (i + 3)
              (dictInsert store nid ⟨nm, la, lb, nid⟩) (count + 1)
          | none => parseLoop lines fuel (i + 3) store count
        else if startsW oneSp nm && startsW twoSp la then
          -- name omitted: shift, substitute placeholder; i += 2
          match extractNorad nm with
          | some nid =>
            parseLoop lines fuel (i + 2)
              (dictInsert store nid ⟨unknownName, nm, la, nid⟩) (count + 1)
          | none => parseLoop lines fuel (i + 2) store count
        else
          -- resynchronize by one line
          parseLoop lines fuel (i + 1) store count
      | _, _, _ => .error .indexOut
    else
      .ok (store, count)

/-- `TLEStore.load_from_text`: strip lines, drop blanks, run the parse loop
on a fresh index (the returned `Dict` is the `_by_id` contents contributed by
this call starting from an empty store, paired with the returned count). -/
def load_from_text (text : List Char) : Except PErr (Dict × Nat) :=
  let lines := ((splitLines text).map trimL).filter (fun l => decide (l ≠ []))
  parseLoop lines (lines.length + 1) 0 [] 0

/-! ## Propagator (`server/propagate.py`) -/

/-- A geodetic sample produced by `propagate_positions`: timestamp in whole
seconds since an arbitrary epoch (the Python code adds
`timedelta(seconds=k*step_seconds)` to `start_time_utc`), plus the subpoint
coordinates. -/
structure OrbitSample where
  t : ℤ
  lat_deg : ℚ
  lon_deg : ℚ
  alt_km : ℚ
deriving DecidableEq, Repr

/-- `propagate_positions` of `propagate.py`.  The Skyfield/SGP4 pipeline
(`EarthSatellite.at` followed by `wgs84.subpoint`) is a vetted external
library per the spec, abstracted as `satAt`, a function from the sample's
absolute time to its geodetic coordinates `(lat, lon, alt)`.
`steps = max(1, int((minutes * 60) // step_seconds))`, then one sample per
`k in range(steps + 1)` at `start + k * step_seconds`. -/
def propagate_positions (satAt : ℤ → ℚ × ℚ × ℚ) (start : ℤ)
    (minutes step_seconds : ℕ) : List OrbitSample :=
  let steps := max 1 ((minutes * 60) / step_seconds)
  (List.range (steps + 1)).map fun (k : ℕ) =>
    let t := start + (k : ℤ) * (step_seconds : ℤ)
    ⟨t, (satAt t).1, (satAt t).2.1, (satAt t).2.2⟩

/-! ## Stable sorts (Python `sorted` / `min`)

Python's `sorted` is a stable sort; with `reverse=True` it keeps the original
order of elements whose keys compare equal.  Both directions are modelled by
insertion sorts folded from the right, which preserve exactly that order. -/

/-- Insert for the ascending stable sort: an element goes before the first
later element whose key is `≥` its own. -/
def insertAsc {α : Type} (key : α → ℚ) (x : α) : List α → List α
  | [] => [x]
  | y :: ys => if key x ≤ key y then x :: y :: ys else y :: insertAsc key x ys

/-- Python `sorted(l, key=key)`. -/
def pySortAsc {α : Type} (key : α → ℚ) (l : List α) : List α :=
  l.foldr (insertAsc key) []

/-- Insert for the descending stable sort: an element goes before the first
later element whose key is `≤` its own. -/
def insertDesc {α : Type} (key : α → ℚ) (x : α) : List α → List α
  | [] => [x]
  | y :: ys => if key y ≤ key x then x :: y :: ys else y :: insertDesc key x ys

/-- Python `sorted(l, key=key, reverse=True)`. -/
def pySortDesc {α : Type} (key : α → ℚ) (l : List α) : List α :=
  l.foldr (insertDesc key) []

/-- Python `min(l, key=key)` as an `Option` (Python raises on `[]`): returns
the first element attaining the minimal key. -/
def pyMinBy {α : Type} (key : α → ℚ) (l : List α) : Option α :=
  l.foldl (fun acc r =>
    match acc with
    | none => some r
    | some b => if key r < key b then some r else some b) none

/-! ## Flux table and collision risk (`server/risk.py`) -/

/-- A row of the ORDEM-like flux grid, as parsed by `_load_flux_table`. -/
structure FluxRow where
  alt_km : ℚ
  inc_deg : ℚ
  smin : ℚ
  smax : ℚ
  flux : ℚ
deriving DecidableEq, Repr

/-- Tolerance `1e-6` used to match grid corners. -/
def epsTol : ℚ := 1 / 1000000

/-- Python `sorted({...})` over floats: sorted list of the distinct values. -/
def insertSorted (x : ℚ) : List ℚ → List ℚ
  | [] => [x]
  | y :: ys =>
    if x < y then x :: y :: ys
    else if x = y then y :: ys
    else y :: insertSorted x ys

/-- Sorted deduplication, modelling `sorted(set(...))`. -/
def sortedDedup (l : List ℚ) : List ℚ := l.foldr insertSorted []

/-- The `flux_at` helper inside `_bilinear` (also the `next(...)` corner
lookup of `_neighbors`): first row within `1e-6` of the requested corner. -/
def fluxAt (grid : List FluxRow) (A I : ℚ) : Option ℚ :=
  (grid.find? (fun g =>
    decide (|g.alt_km - A| < epsTol) && decide (|g.inc_deg - I| < epsTol))).map
    (fun g => g.flux)

/-- `_neighbors` of `risk.py`.  `candidates` are the rows matching the size
bin exactly; `a1/a2` (`i1/i2`) bracket the query altitude (inclination) among
the distinct candidate values, with CPython's *eagerly evaluated* `max(...,
default=alts[0])` / `min(..., default=alts[-1])` defaults: when `candidates`
is empty, `alts[0]` itself raises `IndexError` — modelled as `none`. -/
def neighbors (alt_km inc_deg smin smax : ℚ) (rows : List FluxRow) :
    Option (List FluxRow) :=
  let candidates :=
    rows.filter (fun r => decide (r.smin = smin) && decide (r.smax = smax))
  let alts := sortedDedup (candidates.map (fun r => r.alt_km))
  let incs := sortedDedup (candidates.map (fun r => r.inc_deg))
  match alts.head?, alts.getLast?, incs.head?, incs.getLast? with
  | some aF, some aL, some iF, some iL =>
    let a1 := ((alts.filter (fun a => decide (a ≤ alt_km))).max?).getD aF
    let a2 := ((alts.filter (fun a => decide (alt_km ≤ a))).min?).getD aL
    let i1 := ((incs.filter (fun i => decide (i ≤ inc_deg))).max?).getD iF
    let i2 := ((incs.filter (fun i => decide (inc_deg ≤ i))).min?).getD iL
    some ([(a1, i1), (a1, i2), (a2, i1), (a2, i2)].filterMap (fun q =>
      candidates.find? (fun r =>
        decide (|r.alt_km - q.1| < epsTol) && decide (|r.inc_deg - q.2| < epsTol))))
  | _, _, _, _ => none

/-- `_bilinear` of `risk.py`.  With fewer than two distinct altitudes or
inclinations in `grid` it returns the nearest point by L1 distance (`none` if
`grid` is empty — Python `min` raises); otherwise bilinear interpolation over
the first two distinct values of each axis, `none` when a corner lookup
returns Python `None` (the subsequent float arithmetic would raise). -/
def bilinear (alt_km inc_deg : ℚ) (grid : List FluxRow) : Option ℚ :=
  let aVals := sortedDedup (grid.map (fun g => g.alt_km))
  let iVals := sortedDedup (grid.map (fun g => g.inc_deg))
  if aVals.length < 2 ∨ iVals.length < 2 then
    (pyMinBy (fun g => |g.alt_km - alt_km| + |g.inc_deg - inc_deg|) grid).map
      (fun g => g.flux)
  else
    match aVals, iVals with
    | a1 :: a2 :: _, i1 :: i2 :: _ =>
      match fluxAt grid a1 i1, fluxAt grid a1 i2,
            fluxAt grid a2 i1, fluxAt grid a2 i2 with
      | some f11, some f12, some f21, some f22 =>
        let t : ℚ := if a2 = a1 then 0 else (alt_km - a1) / (a2 - a1)
        let u : ℚ := if i2 = i1 then 0 else (inc_deg - i1) / (i2 - i1)
        some (f11 * (1 - t) * (1 - u) + f21 * t * (1 - u) +
              f12 * (1 - t) * u + f22 * t * u)
      | _, _, _, _ => none
    | _, _ => none

/-- `flux_ordem_like` of `risk.py`, parameterized by the loaded grid `rows`
(`_load_flux_table` reads a static CSV once; its contents are the `rows`
argument here).  `none` models an uncaught exception. -/
def flux_ordem_like (alt_km inc_deg size_min_cm size_max_cm : ℚ)
    (rows : List FluxRow) : Option ℚ :=
  match neighbors alt_km inc_deg size_min_cm size_max_cm rows with
  | none => none
  | some grid =>
    if grid = [] then
      ((pySortAsc (fun r =>
          |r.alt_km - alt_km| + |r.inc_deg - inc_deg| +
          |r.smin - size_min_cm| + |r.smax - size_max_cm|) rows).head?).map
        (fun r => r.flux)
    else
      bilinear alt_km inc_deg grid

/-- `annual_collision_probability` of `risk.py`:
`lam = flux * cross_section * years; return 1.0 - exp(-lam)`.
No input validation of any kind is performed by the source. -/
noncomputable def annual_collision_probability
    (cross_section_m2 years flux_per_m2_per_year : ℝ) : ℝ :=
  1 - Real.exp (-(flux_per_m2_per_year * cross_section_m2 * years))

/-! ## Proximity engine (`filter_debris_by_proximity` in `server/main.py`) -/

/-- The float math library calls of `filter_debris_by_proximity`
(`math.cos(math.radians x)`, `math.sin(math.radians x)`, `math.sqrt`), which
are external C routines on IEEE doubles, abstracted as rational-valued
primitives (every IEEE double is a rational number). -/
structure MathPrims where
  cosDeg : ℚ → ℚ
  sinDeg : ℚ → ℚ
  sqrtQ : ℚ → ℚ

/-- The satellite position dict (`satellite_pos`): keys `altitude_km`,
`latitude`, `longitude`. -/
structure SatPos where
  altitude_km : ℚ
  latitude : ℚ
  longitude : ℚ

/-- A debris candidate dict: keys `altitude`, `latitude`, `longitude`. -/
structure DebrisIn where
  altitude : ℚ
  latitude : ℚ
  longitude : ℚ
deriving DecidableEq, Repr

/-- A debris dict after scoring: the original fields plus the three keys the
loop adds (`distance_from_satellite_km`, `relative_velocity_kms`,
`proximity_risk_factor`). -/
structure ScoredDebris where
  deb : DebrisIn
  distance_from_satellite_km : ℚ
  relative_velocity_kms : ℚ
  proximity_risk_factor : ℚ
deriving DecidableEq, Repr

/-- Python `round(x, n)` (banker's rounding to `n` decimal places), on the
exact rational value. -/
def roundHalfEven (x : ℚ) : ℤ :=
  let f := Int.floor x
  let frac := x - (f : ℚ)
  if frac < 1 / 2 then f
  else if 1 / 2 < frac then f + 1
  else if f % 2 = 0 then f else f + 1

/-- `round(x, n)` with `n` decimal places. -/
def roundTo (n : ℕ) (x : ℚ) : ℚ :=
  ((roundHalfEven (x * 10 ^ n) : ℚ)) / 10 ^ n

/-- The 3-D Cartesian distance computed inside the loop of
`filter_debris_by_proximity`: both geodetic positions converted with
`r = 6371 + alt`, `x = r cos(lat) cos(lon)`, `y = r cos(lat) sin(lon)`,
`z = r sin(lat)`, then the Euclidean norm of the difference. -/
def debrisDistance (p : MathPrims) (sat : SatPos) (d : DebrisIn) : ℚ :=
  let satr := 6371 + sat.altitude_km
  let sx := satr * p.cosDeg sat.latitude * p.cosDeg sat.longitude
  let sy := satr * p.cosDeg sat.latitude * p.sinDeg sat.longitude
  let sz := satr * p.sinDeg sat.latitude
  let debr := 6371 + d.altitude
  let dx := debr * p.cosDeg d.latitude * p.cosDeg d.longitude
  let dy := debr * p.cosDeg d.latitude * p.sinDeg d.longitude
  let dz := debr * p.sinDeg d.latitude
  p.sqrtQ ((sx - dx) ^ 2 + (sy - dy) ^ 2 + (sz - dz) ^ 2)

/-- The relative velocity of the same loop:
`|sqrt(398600 / sat_r) - sqrt(398600 / debris_r)|`. -/
def debrisRelVel (p : MathPrims) (sat : SatPos) (d : DebrisIn) : ℚ :=
  |p.sqrtQ (398600 / (6371 + sat.altitude_km)) -
    p.sqrtQ (398600 / (6371 + d.altitude))|

/-- The scoring step executed when `distance_km <= max_distance_km`:
`risk_distance_factor = max(0, (max - d) / max)`,
`risk_velocity_factor = min(1, rv / 10)`,
`combined = 0.7 * rdf + 0.3 * rvf`, each stored field rounded as in the
source (`round(d, 2)`, `round(rv, 3)`, `round(combined, 4)`). -/
def scoreDebris (p : MathPrims) (sat : SatPos) (max_distance_km : ℚ)
    (d : DebrisIn) : ScoredDebris :=
  let dist := debrisDistance p sat d
  let rv := debrisRelVel p sat d
  let rdf := max 0 ((max_distance_km - dist) / max_distance_km)
  let rvf := min 1 (rv / 10)
  ⟨d, roundTo 2 dist, roundTo 3 rv, roundTo 4 (rdf * (7 / 10) + rvf * (3 / 10))⟩

/-- `filter_debris_by_proximity` of `main.py`: keep the candidates whose
distance is `≤ max_distance_km`, score them, and sort by
`proximity_risk_factor` descending (`sorted(..., reverse=True)`, stable). -/
def filter_debris_by_proximity (p : MathPrims) (sat : SatPos)
    (debris_list : List DebrisIn) (max_distance_km : ℚ) : List ScoredDebris :=
  pySortDesc (fun s => s.proximity_risk_factor)
    (debris_list.filterMap (fun d =>
      if debrisDistance p sat d ≤ max_distance_km then
        some (scoreDebris p sat max_distance_km d)
      else none))

/-- A line free of the line terminators recognised by the splitter. -/
def noNL (l : List Char) : Prop := ∀ c ∈ l, ¬(c = '\n' ∨ c = '\r')

instance (l : List Char) : Decidable (noNL l) := List.decidableBAll _ l

/-- Trivial instance of the external SGP4 sampler, for concrete checks. -/
def satAt0 : ℤ → ℚ × ℚ × ℚ := fun _ => (0, 0, 0)

/-- Flux grid used in concrete checks: one size bin `[1,10]`, two altitudes,
two inclinations, one row per corner. -/
def rowsW : List FluxRow :=
  [⟨400, 50, 1, 10, 1⟩, ⟨400, 60, 1, 10, 2⟩,
   ⟨500, 50, 1, 10, 3⟩, ⟨500, 60, 1, 10, 4⟩]

/-- Math-library instance used in concrete checks; at every point this check
evaluates, the values agree with the exact real functions
(`cos(radians 0) = 1`, `sin(radians 0) = 0`, `sqrt(0.111^2) = 0.111`). -/
def prims0 : MathPrims :=
  ⟨fun q => if q = 0 then 1 else 0, fun _ => 0,
   fun q => if q = (111 / 1000) ^ 2 then 111 / 1000 else 0⟩

/-- Satellite over the equator/prime meridian at 400 km, for concrete checks. -/
def sat0 : SatPos := ⟨400, 0, 0⟩

/-- Debris 0.111 km above `sat0` on the same radial, for concrete checks. -/
def deb0 : DebrisIn := ⟨400 + 111 / 1000, 0, 0⟩

/-! ## Lemmas about the line splitter and the parse loop -/

theorem splitLines_noNL (l : List Char) (h : noNL l) : splitLines l = [l] := by
  induction l with
  | nil => rfl
  | cons c t ih =>
    have hc : ¬(c = '\n' ∨ c = '\r') := h c (List.mem_cons_self c t)
    have ht : noNL t := fun x hx => h x (List.mem_cons_of_mem c hx)
    simp only [splitLines, if_neg hc, ih ht]

theorem splitLines_append (l rest : List Char) (h : noNL l) :
    splitLines (l ++ '\n' :: rest) = l :: splitLines rest := by
  induction l with
  | nil => simp [splitLines]
  | cons c t ih =>
    have hc : ¬(c = '\n' ∨ c = '\r') := h c (List.mem_cons_self c t)
    have ht : noNL t := fun x hx => h x (List.mem_cons_of_mem c hx)
    simp [splitLines, hc, ih ht]

theorem startsW_ne_nil (a : Char) (p l : List Char)
    (h : startsW (a :: p) l = true) : l ≠ [] := by
  intro hl
  rw [hl] at h
  simp [startsW] at h

theorem startsW_head (a : Char) (p l : List Char)
    (h : startsW (a :: p) l = true) : ∃ t, l = a :: t := by
  match l with
  | [] => simp [startsW] at h
  | c :: t =>
    simp only [startsW, Bool.and_eq_true, decide_eq_true_eq] at h
    exact ⟨t, by rw [h.1]⟩

theorem startsW_two_not_one (l : List Char) (h : startsW twoSp l = true) :
    startsW oneSp l = false := by
  obtain ⟨t, rfl⟩ := startsW_head '2' [' '] l h
  simp [startsW, oneSp]

/-- The parse loop always returns `.ok` when given more fuel than remaining
lines: every branch advances `i` by at least one, and every list access is
guarded by `i + 2 < len(lines)`. -/
theorem parseLoop_total (lines : List (List Char)) :
    ∀ fuel i store count, lines.length - i < fuel →
      ∃ r, parseLoop lines fuel i store count = .ok r := by
  intro fuel
  induction fuel with
  | zero => intro i s c h; omega
  | succ f ih =>
    intro i s c h
    simp only [parseLoop]
    split
    · next hlt =>
      rw [List.get?_eq_get (show i < lines.length by omega),
        List.get?_eq_get (show i + 1 < lines.length by omega),
        List.get?_eq_get (show i + 2 < lines.length by omega)]
      dsimp only
      repeat' split
      all_goals (refine ih _ _ _ ?_; omega)
    · exact ⟨(s, c), rfl⟩

/-- Evaluation of the parse loop on a single well-formed block. -/
theorem parseLoop_three (nm l1 l2 : List Char) (nid : Nat) (f : Nat)
    (h1 : startsW oneSp l1 = true) (h2 : startsW twoSp l2 = true)
    (hid : extractNorad l1 = some nid) :
    parseLoop [nm, l1, l2] (f + 2) 0 [] 0 =
      .ok ([(nid, ⟨nm, l1, l2, nid⟩)], 1) := by
  show parseLoop [nm, l1, l2] (f + 1 + 1) 0 [] 0 = _
  simp only [parseLoop, List.length_cons, List.length_nil, List.get?, h1, h2, hid,
    Bool.and_self, if_true, dictInsert]
  norm_num

/-- Evaluation of the parse loop on a headerless block followed by one more
line: the shift branch fires and substitutes the placeholder name. -/
theorem parseLoop_shift (l1 l2 r : List Char) (nid : Nat) (f : Nat)
    (h1 : startsW oneSp l1 = true) (h2 : startsW twoSp l2 = true)
    (hid : extractNorad l1 = some nid) :
    parseLoop [l1, l2, r] (f + 2) 0 [] 0 =
      .ok ([(nid, ⟨unknownName, l1, l2, nid⟩)], 1) := by
  have h2' : startsW oneSp l2 = false := startsW_two_not_one l2 h2
  show parseLoop [l1, l2, r] (f + 1 + 1) 0 [] 0 = _
  simp only [parseLoop, List.length_cons, List.length_nil, List.get?, h1, h2, h2',
    hid, Bool.false_and, Bool.and_self, dictInsert]
  norm_num

/-- Evaluation of the parse loop on just two lines: the loop guard
`i + 2 < len(lines)` fails immediately, so nothing is ingested. -/
theorem parseLoop_two (l1 l2 : List Char) (f : Nat) :
    parseLoop [l1, l2] (f + 1) 0 [] 0 = .ok ([], 0) := by
  simp [parseLoop]

/-- Normalisation of a three-line text into the parser's line list. -/
theorem processed_lines_three (a b c : List Char)
    (hna : noNL a) (hnb : noNL b) (hnc : noNL c)
    (hta : trimL a = a) (htb : trimL b = b) (htc : trimL c = c)
    (ha : a ≠ []) (hb : b ≠ []) (hc : c ≠ []) :
    ((splitLines (a ++ '\n' :: (b ++ '\n' :: c))).map trimL).filter
      (fun l => decide (l ≠ [])) = [a, b, c] := by
  rw [splitLines_append a _ hna, splitLines_append b _ hnb, splitLines_noNL c hnc]
  simp [List.filter, hta, htb, htc, ha, hb, hc]

/-- Normalisation of a two-line text into the parser's line list. -/
theorem processed_lines_two (a b : List Char)
    (hna : noNL a) (hnb : noNL b) (hta : trimL a = a) (htb : trimL b = b)
    (ha : a ≠ []) (hb : b ≠ []) :
    ((splitLines (a ++ '\n' :: b)).map trimL).filter
      (fun l => decide (l ≠ [])) = [a, b] := by
  rw [splitLines_append a _ hna, splitLines_noNL b hnb]
  simp [List.filter, hta, htb, ha, hb]

/-- Loading a single well-formed 3-line block ingests exactly that record
(no field of `line2` other than its `"2 "` prefix is ever examined). -/
theorem load_single_block (name l1 l2 : List Char) (nid : Nat)
    (hnN : noNL name) (hn1 : noNL l1) (hn2 : noNL l2)
    (htN : trimL name = name) (ht1 : trimL l1 = l1) (ht2 : trimL l2 = l2)
    (hneN : name ≠ [])
    (h1 : startsW oneSp l1 = true) (h2 : startsW twoSp l2 = true)
    (hid : extractNorad l1 = some nid) :
    load_from_text (name ++ '\n' :: (l1 ++ '\n' :: l2)) =
      .ok ([(nid, ⟨name, l1, l2, nid⟩)], 1) := by
  have hne1 : l1 ≠ [] := startsW_ne_nil '1' [' '] l1 h1
  have hne2 : l2 ≠ [] := startsW_ne_nil '2' [' '] l2 h2
  simp only [load_from_text]
  rw [processed_lines_three name l1 l2 hnN hn1 hn2 htN ht1 ht2 hneN hne1 hne2]
  exact parseLoop_three name l1 l2 nid 2 h1 h2 hid

/-- Loading a headerless block followed by at least one more non-blank line
ingests it under the placeholder name. -/
theorem load_headerless_block (l1 l2 r : List Char) (nid : Nat)
    (hn1 : noNL l1) (hn2 : noNL l2) (hnr : noNL r)
    (ht1 : trimL l1 = l1) (ht2 : trimL l2 = l2) (htr : trimL r = r)
    (hner : r ≠ [])
    (h1 : startsW oneSp l1 = true) (h2 : startsW twoSp l2 = true)
    (hid : extractNorad l1 = some nid) :
    load_from_text (l1 ++ '\n' :: (l2 ++ '\n' :: r)) =
      .ok ([(nid, ⟨unknownName, l1, l2, nid⟩)], 1) := by
  have hne1 : l1 ≠ [] := startsW_ne_nil '1' [' '] l1 h1
  have hne2 : l2 ≠ [] := startsW_ne_nil '2' [' '] l2 h2
  simp only [load_from_text]
  rw [processed_lines_three l1 l2 r hn1 hn2 hnr ht1 ht2 htr hne1 hne2 hner]
  exact parseLoop_shift l1 l2 r nid 2 h1 h2 hid

/-- A headerless block that forms the final two lines of the text is never
examined: the loop guard `i + 2 < len(lines)` fails immediately. -/
theorem load_headerless_tail (l1 l2 : List Char)
    (hn1 : noNL l1) (hn2 : noNL l2) (ht1 : trimL l1 = l1) (ht2 : trimL l2 = l2)
    (hne1 : l1 ≠ []) (hne2 : l2 ≠ []) :
    load_from_text (l1 ++ '\n' :: l2) = .ok ([], 0) := by
  simp only [load_from_text]
  rw [processed_lines_two l1 l2 hn1 hn2 ht1 ht2 hne1 hne2]
  exact parseLoop_two l1 l2 2

/-! ## Lemmas about the stable descending sort -/

theorem mem_insertDesc {α : Type} (key : α → ℚ) (x a : α) (l : List α) :
    a ∈ insertDesc key x l ↔ a = x ∨ a ∈ l := by
  induction l with
  | nil => simp [insertDesc]
  | cons y ys ih =>
    simp only [insertDesc]
    split
    · simp [List.mem_cons]
    · simp only [List.mem_cons, ih]
      tauto

theorem mem_pySortDesc {α : Type} (key : α → ℚ) (a : α) (l : List α) :
    a ∈ pySortDesc key l ↔ a ∈ l := by
  induction l with
  | nil => simp [pySortDesc]
  | cons x l ih =>
    rw [show pySortDesc key (x :: l) = insertDesc key x (pySortDesc key l) from rfl,
      mem_insertDesc]
    simp [List.mem_cons, ih]

theorem pairwise_insertDesc {α : Type} (key : α → ℚ) (x : α) (l : List α)
    (h : l.Pairwise (fun a b => key b ≤ key a)) :
    (insertDesc key x l).Pairwise (fun a b => key b ≤ key a) := by
  induction l with
  | nil => simp [insertDesc]
  | cons y ys ih =>
    rcases List.pairwise_cons.mp h with ⟨hy, hys⟩
    simp only [insertDesc]
    split
    · next hle =>
      refine List.pairwise_cons.mpr ⟨?_, h⟩
      intro b hb
      rcases List.mem_cons.mp hb with rfl | hmem
      · exact hle
      · exact le_trans (hy b hmem) hle
    · next hgt =>
      have hxy : key x ≤ key y := le_of_lt (not_le.mp hgt)
      refine List.pairwise_cons.mpr ⟨?_, ih hys⟩
      intro b hb
      rcases (mem_insertDesc key x b ys).mp hb with rfl | hmem
      · exact hxy
      · exact hy b hmem

theorem pairwise_pySortDesc {α : Type} (key : α → ℚ) (l : List α) :
    (pySortDesc key l).Pairwise (fun a b => key b ≤ key a) := by
  induction l with
  | nil => simp [pySortDesc]
  | cons x l ih => exact pairwise_insertDesc key x (pySortDesc key l) ih

theorem filter_insertDesc {α : Type} (key : α → ℚ) (q : ℚ) (x : α) (l : List α) :
    (insertDesc key x l).filter (fun a => decide (key a = q)) =
      if key x = q then x :: l.filter (fun a => decide (key a = q))
      else l.filter (fun a => decide (key a = q)) := by
  induction l with
  | nil => by_cases hx : key x = q <;> simp [insertDesc, List.filter, hx]
  | cons y ys ih =>
    simp only [insertDesc]
    split
    · next hle => by_cases hx : key x = q <;> simp [List.filter_cons, hx]
    · next hgt =>
      by_cases hx : key x = q
      · have hy : ¬(key y = q) := by
          intro hyq
          exact hgt (le_of_eq (hyq.trans hx.symm))
        simp [List.filter_cons, hx, hy, ih]
      · simp only [List.filter_cons, ih, if_neg hx]
  
theorem filter_pySortDesc {α : Type} (key : α → ℚ) (q : ℚ) (l : List α) :
    (pySortDesc key l).filter (fun a => decide (key a = q)) =
      l.filter (fun a => decide (key a = q)) := by
  induction l with
  | nil => rfl
  | cons x l ih =>
    rw [show pySortDesc key (x :: l) = insertDesc key x (pySortDesc key l) from rfl,
      filter_insertDesc]
    by_cases hx : key x = q <;> simp [List.filter_cons, hx, ih]

/-! ## Lemmas about the propagator -/

theorem propagate_get (satAt : ℤ → ℚ × ℚ × ℚ) (t0 : ℤ) (minutes step_seconds : ℕ)
    (k : ℕ) (hk : k < (propagate_positions satAt t0 minutes step_seconds).length) :
    ((propagate_positions satAt t0 minutes step_seconds).get ⟨k, hk⟩).t
      = t0 + (k : ℤ) * (step_seconds : ℤ) := by
  rw [List.get_eq_getElem]
  simp only [propagate_positions]
  rw [List.getElem_map, List.getElem_range]

/-! ## Convexity of the bilinear formula -/

theorem bilinear_corners (alt_km inc_deg a1 a2 i1 i2 f11 f12 f21 f22 : ℚ)
    (grid : List FluxRow)
    (ha : sortedDedup (grid.map fun g => g.alt_km) = [a1, a2])
    (hi : sortedDedup (grid.map fun g => g.inc_deg) = [i1, i2])
    (hane : ¬(a2 = a1)) (hine : ¬(i2 = i1))
    (h11 : fluxAt grid a1 i1 = some f11) (h12 : fluxAt grid a1 i2 = some f12)
    (h21 : fluxAt grid a2 i1 = some f21) (h22 : fluxAt grid a2 i2 = some f22) :
    bilinear alt_km inc_deg grid =
      some (f11 * (1 - (alt_km - a1) / (a2 - a1)) * (1 - (inc_deg - i1) / (i2 - i1)) +
            f21 * ((alt_km - a1) / (a2 - a1)) * (1 - (inc_deg - i1) / (i2 - i1)) +
            f12 * (1 - (alt_km - a1) / (a2 - a1)) * ((inc_deg - i1) / (i2 - i1)) +
            f22 * ((alt_km - a1) / (a2 - a1)) * ((inc_deg - i1) / (i2 - i1))) := by
  simp only [bilinear, ha, hi, List.length_cons, List.length_nil, h11, h12, h21, h22]
  norm_num [hane, hine]

theorem convex_bound (t u f11 f12 f21 f22 : ℚ)
    (ht0 : 0 ≤ t) (ht1 : t ≤ 1) (hu0 : 0 ≤ u) (hu1 : u ≤ 1) :
    min (min f11 f12) (min f21 f22) ≤
        f11 * (1 - t) * (1 - u) + f21 * t * (1 - u) + f12 * (1 - t) * u + f22 * t * u
    ∧ f11 * (1 - t) * (1 - u) + f21 * t * (1 - u) + f12 * (1 - t) * u + f22 * t * u ≤
        max (max f11 f12) (max f21 f22) := by
  have w11 : (0:ℚ) ≤ (1 - t) * (1 - u) := mul_nonneg (by linarith) (by linarith)
  have w21 : (0:ℚ) ≤ t * (1 - u) := mul_nonneg ht0 (by linarith)
  have w12 : (0:ℚ) ≤ (1 - t) * u := mul_nonneg (by linarith) hu0
  have w22 : (0:ℚ) ≤ t * u := mul_nonneg ht0 hu0
  have m11 : min (min f11 f12) (min f21 f22) ≤ f11 :=
    le_trans (min_le_left _ _) (min_le_left _ _)
  have m12 : min (min f11 f12) (min f21 f22) ≤ f12 :=
    le_trans (min_le_left _ _) (min_le_right _ _)
  have m21 : min (min f11 f12) (min f21 f22) ≤ f21 :=
    le_trans (min_le_right _ _) (min_le_left _ _)
  have m22 : min (min f11 f12) (min f21 f22) ≤ f22 :=
    le_trans (min_le_right _ _) (min_le_right _ _)
  have x11 : f11 ≤ max (max f11 f12) (max f21 f22) :=
    le_trans (le_max_left _ _) (le_max_left _ _)
  have x12 : f12 ≤ max (max f11 f12) (max f21 f22) :=
    le_trans (le_max_right _ _) (le_max_left _ _)
  have x21 : f21 ≤ max (max f11 f12) (max f21 f22) :=
    le_trans (le_max_left _ _) (le_max_right _ _)
  have x22 : f22 ≤ max (max f11 f12) (max f21 f22) :=
    le_trans (le_max_right _ _) (le_max_right _ _)
  constructor
  · nlinarith [mul_le_mul_of_nonneg_right m11 w11, mul_le_mul_of_nonneg_right m21 w21,
      mul_le_mul_of_nonneg_right m12 w12, mul_le_mul_of_nonneg_right m22 w22]
  · nlinarith [mul_le_mul_of_nonneg_right x11 w11, mul_le_mul_of_nonneg_right x21 w21,
      mul_le_mul_of_nonneg_right x12 w12, mul_le_mul_of_nonneg_right x22 w22]

example : extractNorad ('1' :: ' ' :: ['2', '5', '5', '4', '4']) = some 25544 := by decide

example :
    load_from_text ("ISS\n1 25544\n2 25544".toList) =
      .ok ([(25544, ⟨"ISS".toList, "1 25544".toList, "2 25544".toList, 25544⟩)], 1) := by
  decide

/-! ## Claim theorems -/

/-- C1 counterexample: with `duration_minutes = 1` and `step_seconds = 120`
(both satisfying the claim's preconditions), the code produces
`max(1, 60 // 120) + 1 = 2` samples while the claimed formula
`floor(60/120) + 1` predicts `1`. -/
theorem C1_counterexample :
    (propagate_positions satAt0 0 1 120).length ≠ 1 * 60 / 120 + 1 := by
  decide

/-- C1 (amended): when additionally `step_seconds ≤ duration_minutes * 60`,
`propagate` returns exactly `floor(duration_minutes*60/step_seconds) + 1`
samples, the first timestamp equals the start time, and consecutive
timestamps differ by exactly `step_seconds`.  (When
`step_seconds > duration_minutes*60`, the `max(1, ...)` in the source yields
2 samples instead of the claimed 1.) -/
theorem C1_amended (satAt : ℤ → ℚ × ℚ × ℚ) (t0 : ℤ) (minutes step_seconds : ℕ)
    (_hm : 1 ≤ minutes) (hs : 1 ≤ step_seconds)
    (hle : step_seconds ≤ minutes * 60) :
    (propagate_positions satAt t0 minutes step_seconds).length
        = minutes * 60 / step_seconds + 1
    ∧ (∀ h0 : 0 < (propagate_positions satAt t0 minutes step_seconds).length,
        ((propagate_positions satAt t0 minutes step_seconds).get ⟨0, h0⟩).t = t0)
    ∧ ∀ i : ℕ,
        ∀ h : i + 1 < (propagate_positions satAt t0 minutes step_seconds).length,
        ((propagate_positions satAt t0 minutes step_seconds).get ⟨i + 1, h⟩).t
          - ((propagate_positions satAt t0 minutes step_seconds).get
              ⟨i, Nat.lt_of_succ_lt h⟩).t = (step_seconds : ℤ) := by
  have hs0 : 0 < step_seconds := hs
  have hdiv : 1 ≤ minutes * 60 / step_seconds := (Nat.one_le_div_iff hs0).mpr hle
  refine ⟨?_, fun h0 => ?_, fun i h => ?_⟩
  · simp only [propagate_positions, List.length_map, List.length_range]
    omega
  · rw [propagate_get]
    simp
  · rw [propagate_get, propagate_get]
    push_cast
    ring

/-- C1 witness: the amended statement at `minutes = 2`, `step_seconds = 60`:
121-sample shape scaled down to 3 samples spaced 60 s apart. -/
theorem C1_witness :
    (1 ≤ 2 ∧ 1 ≤ 60 ∧ 60 ≤ 2 * 60) ∧
    ((propagate_positions satAt0 0 2 60).length = 2 * 60 / 60 + 1
     ∧ (∀ h0 : 0 < (propagate_positions satAt0 0 2 60).length,
         ((propagate_positions satAt0 0 2 60).get ⟨0, h0⟩).t = 0)
     ∧ ∀ i : ℕ, ∀ h : i + 1 < (propagate_positions satAt0 0 2 60).length,
         ((propagate_positions satAt0 0 2 60).get ⟨i + 1, h⟩).t
           - ((propagate_positions satAt0 0 2 60).get
               ⟨i, Nat.lt_of_succ_lt h⟩).t = ((60 : ℕ) : ℤ)) :=
  ⟨⟨by norm_num, by norm_num, by norm_num⟩,
   C1_amended satAt0 0 2 60 (by norm_num) (by norm_num) (by norm_num)⟩

/-- C2: with a one-row grid whose size bin is `[1,10]`, the query for size
bin `[5,50]` matches no row.  The code then evaluates `alts[0]` on the empty
candidate set — the `default=` argument of `max()` is evaluated eagerly in
Python — and raises `IndexError` (modelled `none`), instead of returning the
globally-nearest row's flux `1e-5` as claimed; the `if not grid` fallback
whose sort key matches the claim is unreachable in this case. -/
theorem C2_failing_eval :
    flux_ordem_like 400 (258 / 5) 5 50 [⟨400, 258 / 5, 1, 10, 1 / 100000⟩]
      = none := by
  norm_num [flux_ordem_like, neighbors, sortedDedup, insertSorted, List.filter]

/-- C3 counterexample: a negative flux input is not rejected — the source has
no validation whatsoever — and the returned value `1 - e` is negative, so it
is a numeric value rather than an `InvalidRiskParameters` failure. -/
theorem C3_counterexample : annual_collision_probability 1 1 (-1) < 0 := by
  unfold annual_collision_probability
  norm_num

/-- C3 (amended): the function performs no input validation; for all
non-negative inputs the result lies in `[0,1]`, while negative flux with
positive area and duration produces a negative number (not an error). -/
theorem C3_amended :
    (∀ A T F : ℝ, 0 ≤ A → 0 ≤ T → 0 ≤ F →
        0 ≤ annual_collision_probability A T F
          ∧ annual_collision_probability A T F ≤ 1)
    ∧ (∀ A T F : ℝ, 0 < A → 0 < T → F < 0 →
        annual_collision_probability A T F < 0) := by
  constructor
  · intro A T F hA hT hF
    unfold annual_collision_probability
    have hlam : 0 ≤ F * A * T := mul_nonneg (mul_nonneg hF hA) hT
    have h1 : Real.exp (-(F * A * T)) ≤ Real.exp 0 :=
      Real.exp_le_exp.mpr (by linarith)
    rw [Real.exp_zero] at h1
    have h2 : 0 < Real.exp (-(F * A * T)) := Real.exp_pos _
    constructor <;> linarith
  · intro A T F hA hT hF
    unfold annual_collision_probability
    have hlam : F * A * T < 0 :=
      mul_neg_of_neg_of_pos (mul_neg_of_neg_of_pos hF hA) hT
    have h := Real.add_one_le_exp (-(F * A * T))
    linarith

/-- C3 witness: the amended statement instantiated at `A = T = F = 1`. -/
theorem C3_witness :
    ((0 : ℝ) ≤ 1) ∧
    (0 ≤ annual_collision_probability 1 1 1
      ∧ annual_collision_probability 1 1 1 ≤ 1) :=
  ⟨by norm_num,
   C3_amended.1 1 1 1 (by norm_num) (by norm_num) (by norm_num)⟩

/-- C4 counterexample: a block whose line1 carries catalog ID 11111 while
line2 carries 22222 is *not* skipped: it is counted (`count = 1`) and the
record — with the mismatched line2 stored verbatim — is retrievable under
11111.  The parser never reads a catalog field from line2. -/
theorem C4_counterexample :
    (load_from_text ("SAT\n1 11111\n2 22222".toList)).map
        (fun r => (r.2, (dictGet r.1 11111).map (fun rec => rec.line2))) =
      .ok (1, some ("2 22222".toList)) := by
  decide

/-- C4 (amended): the catalog ID is parsed from line1 only; any block whose
line1 yields a parseable ID is ingested, counted and retrievable, with no
comparison at all against line2's catalog field (note the absence of any
hypothesis relating `l2` to `nid`). -/
theorem C4_amended (name l1 l2 : List Char) (nid : Nat)
    (hnN : noNL name) (hn1 : noNL l1) (hn2 : noNL l2)
    (htN : trimL name = name) (ht1 : trimL l1 = l1) (ht2 : trimL l2 = l2)
    (hneN : name ≠ [])
    (h1 : startsW oneSp l1 = true) (h2 : startsW twoSp l2 = true)
    (hid : extractNorad l1 = some nid) :
    ∃ st : Dict,
      load_from_text (name ++ '\n' :: (l1 ++ '\n' :: l2)) = .ok (st, 1)
        ∧ dictGet st nid = some ⟨name, l1, l2, nid⟩ := by
  refine ⟨_, load_single_block name l1 l2 nid hnN hn1 hn2 htN ht1 ht2 hneN
    h1 h2 hid, ?_⟩
  simp [dictGet]

/-- C4 witness: the amended statement at the mismatched block
`SAT / 1 11111 / 2 22222`. -/
theorem C4_witness :
    extractNorad ("1 11111".toList) = some 11111 ∧
    (∃ st : Dict,
      load_from_text ("SAT".toList ++ '\n' ::
          ("1 11111".toList ++ '\n' :: "2 22222".toList)) = .ok (st, 1)
        ∧ dictGet st 11111 =
            some ⟨"SAT".toList, "1 11111".toList, "2 22222".toList, 11111⟩) :=
  ⟨by decide,
   C4_amended ("SAT".toList) ("1 11111".toList) ("2 22222".toList) 11111
     (by decide) (by decide) (by decide) (by decide) (by decide) (by decide)
     (by decide) (by decide) (by decide) (by decide)⟩

/-- C5 counterexample: `load_from_text` strips each line, so a well-formed
block (per the claim's own criteria) whose line1 carries a trailing blank
round-trips to the *stripped* line, which is not byte-identical to the
input line. -/
theorem C5_counterexample :
    (load_from_text ("ISS\n1 25544 \n2 25544".toList)).map
        (fun r => (dictGet r.1 25544).map (fun rec => rec.line1)) =
      .ok (some ("1 25544".toList))
    ∧ "1 25544".toList ≠ "1 25544 ".toList := by
  exact ⟨by decide, by decide⟩

/-- C5 (amended): for a well-formed 3-line block whose lines carry no
leading/trailing whitespace (so stripping is the identity), `load` followed
by `get(catalog_id)` returns the input's line1 and line2 byte-identically. -/
theorem C5_amended (name l1 l2 : List Char) (nid : Nat)
    (hnN : noNL name) (hn1 : noNL l1) (hn2 : noNL l2)
    (htN : trimL name = name) (ht1 : trimL l1 = l1) (ht2 : trimL l2 = l2)
    (hneN : name ≠ [])
    (h1 : startsW oneSp l1 = true) (h2 : startsW twoSp l2 = true)
    (hid : extractNorad l1 = some nid) :
    ∃ (st : Dict) (n : ℕ),
      load_from_text (name ++ '\n' :: (l1 ++ '\n' :: l2)) = .ok (st, n)
        ∧ (dictGet st nid).map (fun rec => rec.line1) = some l1
        ∧ (dictGet st nid).map (fun rec => rec.line2) = some l2 := by
  refine ⟨_, 1, load_single_block name l1 l2 nid hnN hn1 hn2 htN ht1 ht2 hneN
    h1 h2 hid, ?_, ?_⟩ <;> simp [dictGet]

/-- C5 witness: the amended statement at the clean block
`ISS / 1 25544 / 2 25544`. -/
theorem C5_witness :
    extractNorad ("1 25544".toList) = some 25544 ∧
    (∃ (st : Dict) (n : ℕ),
      load_from_text ("ISS".toList ++ '\n' ::
          ("1 25544".toList ++ '\n' :: "2 25544".toList)) = .ok (st, n)
        ∧ (dictGet st 25544).map (fun rec => rec.line1)
            = some ("1 25544".toList)
        ∧ (dictGet st 25544).map (fun rec => rec.line2)
            = some ("2 25544".toList)) :=
  ⟨by decide,
   C5_amended ("ISS".toList) ("1 25544".toList) ("2 25544".toList) 25544
     (by decide) (by decide) (by decide) (by decide) (by decide) (by decide)
     (by decide) (by decide) (by decide) (by decide)⟩

/-- C6 counterexample: the stored `proximity_risk_factor` is
`round(risk, 4)`, not the claim's exact formula: here the exact risk is
`0.6999223` but the list returned by the code carries `0.6999`. -/
theorem C6_counterexample :
    (filter_debris_by_proximity prims0 sat0 [deb0] 1000).map
        (fun s => s.proximity_risk_factor) ≠
      [(7 / 10) * ((1000 - debrisDistance prims0 sat0 deb0) / 1000) +
        (3 / 10) * min 1 (debrisRelVel prims0 sat0 deb0 / 10)] := by
  have h1 : (filter_debris_by_proximity prims0 sat0 [deb0] 1000).map
      (fun s => s.proximity_risk_factor) = [6999 / 10000] := by
    norm_num [filter_debris_by_proximity, pySortDesc, insertDesc,
      List.filterMap, scoreDebris, debrisDistance, debrisRelVel, prims0, sat0,
      deb0, roundTo, roundHalfEven, Int.floor_eq_iff]
  have h2 : (7 / 10 : ℚ) * ((1000 - debrisDistance prims0 sat0 deb0) / 1000) +
      (3 / 10) * min 1 (debrisRelVel prims0 sat0 deb0 / 10)
        = 6999223 / 10000000 := by
    norm_num [debrisDistance, debrisRelVel, prims0, sat0, deb0]
  rw [h1, h2]
  norm_num

/-- C6 (amended): the filter returns exactly the candidates whose 3-D
Cartesian distance is `≤ max_distance_km` (farther candidates are excluded
entirely), each scored with
`round(0.7*max(0,(max-d)/max) + 0.3*min(1, rv/10), 4)` (the source rounds the
stored risk to 4 decimal places, distance to 2, velocity to 3), and the
result is sorted by descending *rounded* risk with ties kept in original
input order (stability expressed by preservation of every equal-risk
subsequence). -/
theorem C6_amended (p : MathPrims) (sat : SatPos) (debris_list : List DebrisIn)
    (max_distance_km : ℚ) :
    (∀ s : ScoredDebris,
        s ∈ filter_debris_by_proximity p sat debris_list max_distance_km ↔
          ∃ d ∈ debris_list, debrisDistance p sat d ≤ max_distance_km ∧
            s = scoreDebris p sat max_distance_km d)
    ∧ (filter_debris_by_proximity p sat debris_list max_distance_km).Pairwise
        (fun a b => b.proximity_risk_factor ≤ a.proximity_risk_factor)
    ∧ ∀ q : ℚ,
        (filter_debris_by_proximity p sat debris_list max_distance_km).filter
            (fun s => decide (s.proximity_risk_factor = q)) =
          (debris_list.filterMap (fun d =>
            if debrisDistance p sat d ≤ max_distance_km then
              some (scoreDebris p sat max_distance_km d)
            else none)).filter
            (fun s => decide (s.proximity_risk_factor = q)) := by
  refine ⟨?_, ?_, ?_⟩
  · intro s
    simp only [filter_debris_by_proximity, mem_pySortDesc, List.mem_filterMap]
    constructor
    · rintro ⟨d, hd, hf⟩
      by_cases hle : debrisDistance p sat d ≤ max_distance_km
      · rw [if_pos hle] at hf
        exact ⟨d, hd, hle, (Option.some_inj.mp hf).symm⟩
      · rw [if_neg hle] at hf
        cases hf
    · rintro ⟨d, hd, hle, rfl⟩
      exact ⟨d, hd, by rw [if_pos hle]⟩
  · exact pairwise_pySortDesc _ _
  · intro q
    exact filter_pySortDesc _ q _

/-- C7: the collision probability is non-decreasing in each argument (others
fixed, all non-negative) and vanishes exactly when the product of the three
arguments vanishes. -/
theorem C7_monotone (A T F : ℝ) (hA : 0 ≤ A) (hT : 0 ≤ T) (hF : 0 ≤ F) :
    (∀ A2, A ≤ A2 →
        annual_collision_probability A T F ≤ annual_collision_probability A2 T F)
    ∧ (∀ T2, T ≤ T2 →
        annual_collision_probability A T F ≤ annual_collision_probability A T2 F)
    ∧ (∀ F2, F ≤ F2 →
        annual_collision_probability A T F ≤ annual_collision_probability A T F2)
    ∧ (annual_collision_probability A T F = 0 ↔ A * T * F = 0) := by
  unfold annual_collision_probability
  refine ⟨?_, ?_, ?_, ?_⟩
  · intro A2 h2
    have hle : F * A * T ≤ F * A2 * T :=
      mul_le_mul_of_nonneg_right (mul_le_mul_of_nonneg_left h2 hF) hT
    have h := Real.exp_le_exp.mpr (neg_le_neg hle)
    linarith
  · intro T2 h2
    have hle : F * A * T ≤ F * A * T2 :=
      mul_le_mul_of_nonneg_left h2 (mul_nonneg hF hA)
    have h := Real.exp_le_exp.mpr (neg_le_neg hle)
    linarith
  · intro F2 h2
    have hle : F * A * T ≤ F2 * A * T :=
      mul_le_mul_of_nonneg_right (mul_le_mul_of_nonneg_right h2 hA) hT
    have h := Real.exp_le_exp.mpr (neg_le_neg hle)
    linarith
  · rw [sub_eq_zero, eq_comm, Real.exp_eq_one_iff, neg_eq_zero,
      show A * T * F = F * A * T from by ring]

/-- C7 witness: the theorem applied at `A = T = F = 1`, zero-iff component. -/
theorem C7_witness :
    ((0 : ℝ) ≤ 1) ∧
    (annual_collision_probability 1 1 1 = 0 ↔ (1 : ℝ) * 1 * 1 = 0) :=
  ⟨by norm_num,
   (C7_monotone 1 1 1 (by norm_num) (by norm_num) (by norm_num)).2.2.2⟩

/-- C8 counterexample: a headerless block (`"1 "` line immediately followed
by a `"2 "` line with a parseable ID) occurring as the final lines of the
text is *not* ingested: the loop guard `i + 2 < len(lines)` never admits the
two-line tail, so the count is 0 and the store is empty. -/
theorem C8_counterexample :
    load_from_text ("1 25544\n2 25544".toList) = .ok ([], 0) := by
  decide

/-- C8 (amended): a headerless block at the start of the text is ingested —
under the placeholder name `UNKNOWN`, counted, and retrievable — provided at
least one further non-blank line follows it; the same block as the final two
lines of the text is skipped entirely. -/
theorem C8_amended (l1 l2 r : List Char) (nid : Nat)
    (hn1 : noNL l1) (hn2 : noNL l2) (hnr : noNL r)
    (ht1 : trimL l1 = l1) (ht2 : trimL l2 = l2) (htr : trimL r = r)
    (hner : r ≠ [])
    (h1 : startsW oneSp l1 = true) (h2 : startsW twoSp l2 = true)
    (hid : extractNorad l1 = some nid) :
    (∃ st : Dict,
      load_from_text (l1 ++ '\n' :: (l2 ++ '\n' :: r)) = .ok (st, 1)
        ∧ dictGet st nid = some ⟨unknownName, l1, l2, nid⟩)
    ∧ load_from_text (l1 ++ '\n' :: l2) = .ok ([], 0) := by
  have hne1 : l1 ≠ [] := startsW_ne_nil '1' [' '] l1 h1
  have hne2 : l2 ≠ [] := startsW_ne_nil '2' [' '] l2 h2
  refine ⟨⟨_, load_headerless_block l1 l2 r nid hn1 hn2 hnr ht1 ht2 htr hner
    h1 h2 hid, ?_⟩, load_headerless_tail l1 l2 hn1 hn2 ht1 ht2 hne1 hne2⟩
  simp [dictGet]

/-- C8 witness: the amended statement at `1 25544 / 2 25544` followed by a
single junk line `X`. -/
theorem C8_witness :
    extractNorad ("1 25544".toList) = some 25544 ∧
    ((∃ st : Dict,
      load_from_text ("1 25544".toList ++ '\n' ::
          ("2 25544".toList ++ '\n' :: "X".toList)) = .ok (st, 1)
        ∧ dictGet st 25544 =
            some ⟨unknownName, "1 25544".toList, "2 25544".toList, 25544⟩)
    ∧ load_from_text ("1 25544".toList ++ '\n' :: "2 25544".toList)
        = .ok ([], 0)) :=
  ⟨by decide,
   C8_amended ("1 25544".toList) ("2 25544".toList) ("X".toList) 25544
     (by decide) (by decide) (by decide) (by decide) (by decide) (by decide)
     (by decide) (by decide) (by decide) (by decide)⟩

/-- C9: for a flux query whose size-bin candidates produce a 2×2 corner grid
(two distinct altitudes and inclinations, query strictly between the
brackets, all four corners present), the interpolated flux is bounded by the
minimum and maximum of the four corner fluxes. -/
theorem C9_interpolation (rows grid : List FluxRow)
    (alt_km inc_deg smin smax a1 a2 i1 i2 f11 f12 f21 f22 : ℚ)
    (hn : neighbors alt_km inc_deg smin smax rows = some grid)
    (ha : sortedDedup (grid.map fun g => g.alt_km) = [a1, a2])
    (hi : sortedDedup (grid.map fun g => g.inc_deg) = [i1, i2])
    (ha1 : a1 < alt_km) (ha2 : alt_km < a2)
    (hi1 : i1 < inc_deg) (hi2 : inc_deg < i2)
    (h11 : fluxAt grid a1 i1 = some f11) (h12 : fluxAt grid a1 i2 = some f12)
    (h21 : fluxAt grid a2 i1 = some f21) (h22 : fluxAt grid a2 i2 = some f22) :
    ∃ v, flux_ordem_like alt_km inc_deg smin smax rows = some v
      ∧ min (min f11 f12) (min f21 f22) ≤ v
      ∧ v ≤ max (max f11 f12) (max f21 f22) := by
  have hane : ¬(a2 = a1) := by intro hcon; rw [hcon] at ha2; linarith
  have hine : ¬(i2 = i1) := by intro hcon; rw [hcon] at hi2; linarith
  have hgridne : ¬(grid = []) := by
    intro hcon
    rw [hcon] at ha
    simp [sortedDedup] at ha
  have ht0 : 0 ≤ (alt_km - a1) / (a2 - a1) :=
    div_nonneg (by linarith) (by linarith)
  have ht1 : (alt_km - a1) / (a2 - a1) ≤ 1 := by
    rw [div_le_one (by linarith)]
    linarith
  have hu0 : 0 ≤ (inc_deg - i1) / (i2 - i1) :=
    div_nonneg (by linarith) (by linarith)
  have hu1 : (inc_deg - i1) / (i2 - i1) ≤ 1 := by
    rw [div_le_one (by linarith)]
    linarith
  refine ⟨_, ?_, convex_bound _ _ f11 f12 f21 f22 ht0 ht1 hu0 hu1⟩
  simp only [flux_ordem_like, hn]
  rw [if_neg hgridne]
  exact bilinear_corners alt_km inc_deg a1 a2 i1 i2 f11 f12 f21 f22 grid
    ha hi hane hine h11 h12 h21 h22

/-- C9 witness: the theorem at the 2×2 grid `rowsW` with query `(450, 55)` in
size bin `[1,10]`; the interpolated value (which is `2.5`) lies between the
corner fluxes `1` and `4`. -/
theorem C9_witness :
    ∃ v, flux_ordem_like 450 55 1 10 rowsW = some v
      ∧ min (min 1 2) (min 3 4) ≤ v ∧ v ≤ max (max 1 2) (max 3 4) :=
  C9_interpolation rowsW rowsW 450 55 1 10 400 500 50 60 1 2 3 4
    (by norm_num [neighbors, rowsW, sortedDedup, insertSorted, List.filter,
      List.max?, List.min?, List.foldl, List.filterMap, List.find?, epsTol])
    (by norm_num [rowsW, sortedDedup, insertSorted])
    (by norm_num [rowsW, sortedDedup, insertSorted])
    (by norm_num) (by norm_num) (by norm_num) (by norm_num)
    (by norm_num [fluxAt, rowsW, List.find?, epsTol])
    (by norm_num [fluxAt, rowsW, List.find?, epsTol])
    (by norm_num [fluxAt, rowsW, List.find?, epsTol])
    (by norm_num [fluxAt, rowsW, List.find?, epsTol])

/-- C10: on arbitrary input text the loader terminates with `.ok`: no list
access escapes the loop guard (no `IndexError`) and the fuel bound — the
loop index strictly increases — is never exhausted; the returned count is a
natural number. -/
theorem C10_total (text : List Char) :
    ∃ (st : Dict) (n : ℕ), load_from_text text = .ok (st, n) := by
  have h := parseLoop_total
    (((splitLines text).map trimL).filter (fun l => decide (l ≠ [])))
    ((((splitLines text).map trimL).filter (fun l => decide (l ≠ []))).length + 1)
    0 [] 0 (by omega)
  obtain ⟨⟨st, n⟩, hok⟩ := h
  exact ⟨st, n, hok⟩
